import Mathlib

/-!
Shallow embedding of the NexusShell job scheduler
(src/nexusshell/src/shell/plugins/scheduler/job.rs and queue.rs).

Timestamps (chrono DateTime<Utc>) and durations are modelled as integers.
The external cron library (cron::Schedule) is not part of this repository;
every operation that consults it takes a parameter
`cron : String → Time → Option Time` standing for
`Schedule::from_str(expr).ok().and_then(|s| s.upcoming(Utc).next())`
evaluated at the given current time: `none` models an unparseable
expression or an empty upcoming sequence.

Calls to `Utc::now()` are modelled by explicit time parameters, and the
process spawned by `tokio::process::Command` is modelled by an oracle
`outcomes : Nat → AttemptOutcome` giving the result of each attempt.
Persistence (`save_state`, which only mirrors the in-memory state to disk)
is the identity on the modelled state.
-/

/-- Model of chrono DateTime<Utc>. -/
abbrev Time := Int

/-- Model of chrono Duration. -/
abbrev Dur := Int

/-- Mirrors enum JobSchedule in job.rs. -/
inductive JobSchedule
  | once (t : Time)
  | recurring (expr : String)
  | interval (d : Dur)
deriving DecidableEq, Repr

/-- Mirrors enum JobStatus in job.rs; Failed carries its free-text cause. -/
inductive JobStatus
  | pending
  | running
  | completed
  | failed (reason : String)
  | cancelled
deriving DecidableEq, Repr

/-- Mirrors struct JobMetadata in job.rs. -/
structure JobMetadata where
  created_at : Time
  updated_at : Time
  last_run : Option Time
  next_run : Option Time
  run_count : Nat
deriving DecidableEq, Repr

/-- Mirrors struct Job in job.rs. -/
structure Job where
  id : String
  name : String
  command : String
  args : List String
  schedule : JobSchedule
  status : JobStatus
  metadata : JobMetadata
  env : List (String × String)
  working_dir : Option String
  timeout : Option Dur
  retry_count : Nat
  retry_delay : Dur
  dependencies : List String
deriving DecidableEq, Repr

/-- Mirrors struct JobResult in job.rs. -/
structure JobResult where
  job_id : String
  success : Bool
  output : String
  error : Option String
  exit_code : Option Int
  completed_at : Time
deriving DecidableEq, Repr

/-- Mirrors struct JobFilter in job.rs. -/
structure JobFilter where
  status : Option JobStatus
  name : Option String
  created_after : Option Time
  created_before : Option Time
  command : Option String
deriving DecidableEq, Repr

/-- Does the character list begin with the given pattern list? -/
def leadsWith : List Char → List Char → Bool
  | _, [] => true
  | [], _ :: _ => false
  | a :: as, b :: bs => a = b && leadsWith as bs

/-- Does the haystack list contain the needle list as a contiguous run? -/
def containsSeq : List Char → List Char → Bool
  | hay, needle =>
    leadsWith hay needle ||
      match hay with
      | [] => false
      | _ :: rest => containsSeq rest needle

/-- Model of Rust str::contains used by JobFilter::matches: substring test. -/
def strContains (hay needle : String) : Bool :=
  containsSeq hay.toList needle.toList

/-- Mirrors Job::new (job.rs). The uuid and Utc::now() become the explicit
parameters `id` and `now`; `cron` models the external cron library. -/
def Job.new (cron : String → Time → Option Time) (id : String) (now : Time)
    (name command : String) (args : List String) (schedule : JobSchedule)
    (env : List (String × String)) (working_dir : Option String)
    (timeout : Option Dur) (retry_count : Nat) (retry_delay : Dur)
    (dependencies : List String) : Job :=
  let next_run : Option Time :=
    match schedule with
    | .once t => some t
    | .recurring cron_expr => cron cron_expr now
    | .interval _ => some now
  { id := id, name := name, command := command, args := args,
    schedule := schedule, status := .pending,
    metadata :=
      { created_at := now, updated_at := now, last_run := none,
        next_run := next_run, run_count := 0 },
    env := env, working_dir := working_dir, timeout := timeout,
    retry_count := retry_count, retry_delay := retry_delay,
    dependencies := dependencies }

/-- Mirrors Job::update_status (job.rs); `now` models Utc::now(). -/
def Job.update_status (j : Job) (status : JobStatus) (now : Time) : Job :=
  { j with status := status, metadata := { j.metadata with updated_at := now } }

/-- Mirrors Job::update_next_run (job.rs); `now` models Utc::now(). -/
def Job.update_next_run (cron : String → Time → Option Time) (now : Time)
    (j : Job) : Job :=
  { j with metadata :=
      { j.metadata with next_run :=
          match j.schedule with
          | .once _ => none
          | .recurring cron_expr => cron cron_expr now
          | .interval d => some (now + d) } }

/-- Outcome of one `command.output().await` in Job::execute:
either the process ran (with its success flag, stdout, stderr and exit
code) or it failed to launch. -/
inductive AttemptOutcome
  | ran (success : Bool) (stdout stderr : String) (code : Option Int)
  | launchErr (msg : String)
deriving DecidableEq, Repr

/-- Observable event of the retry loop in Job::execute: one process
attempt, or one `time::sleep(retry_delay)`. -/
inductive ExecEvent
  | attempt (o : AttemptOutcome)
  | sleep (d : Dur)
deriving DecidableEq, Repr

/-- Mirrors the retry loop of Job::execute (job.rs). `i` is the index of
the next attempt in the oracle, `left` the remaining budget of the local
`retry_count` counter (it starts at `self.retry_count`, matching the Rust
guard `retry_count < self.retry_count` which permits exactly that many
increments). Returns the JobResult the loop breaks with, and the trace of
attempts and sleeps. `tEnd` models the Utc::now() of the break. -/
def execLoop (jid : String) (retryDelay : Dur)
    (outcomes : Nat → AttemptOutcome) (tEnd : Time) :
    Nat → Nat → JobResult × List ExecEvent
  | i, left =>
    match outcomes i with
    | .ran true so _ c =>
      ({ job_id := jid, success := true, output := so, error := none,
         exit_code := c, completed_at := tEnd }, [.attempt (outcomes i)])
    | .ran false so se c =>
      match left with
      | left' + 1 =>
        let r := execLoop jid retryDelay outcomes tEnd (i + 1) left'
        (r.1, .attempt (outcomes i) :: .sleep retryDelay :: r.2)
      | 0 =>
        ({ job_id := jid, success := false, output := so, error := some se,
           exit_code := c, completed_at := tEnd }, [.attempt (outcomes i)])
    | .launchErr m =>
      match left with
      | left' + 1 =>
        let r := execLoop jid retryDelay outcomes tEnd (i + 1) left'
        (r.1, .attempt (outcomes i) :: .sleep retryDelay :: r.2)
      | 0 =>
        ({ job_id := jid, success := false, output := "", error := some m,
           exit_code := none, completed_at := tEnd }, [.attempt (outcomes i)])

/-- Mirrors Job::execute (job.rs). `now` models Utc::now() at entry and
`tEnd` the time the retry loop finishes; `outcomes` is the process oracle.
Returns the mutated job (the clone held by the spawned task), the
JobResult sent on the channel, and the attempt/sleep trace. -/
def Job.execute (cron : String → Time → Option Time) (now tEnd : Time)
    (outcomes : Nat → AttemptOutcome) (j : Job) :
    Job × JobResult × List ExecEvent :=
  let j1 : Job :=
    { j with metadata :=
        { j.metadata with last_run := some now
                          run_count := j.metadata.run_count + 1 } }
  let j2 := j1.update_status .running now
  let re := execLoop j.id j.retry_delay outcomes tEnd 0 j.retry_count
  let j3 := j2.update_status
    (if re.1.success then .completed else .failed (re.1.error.getD "")) tEnd
  let j4 := Job.update_next_run cron tEnd j3
  (j4, re.1, re.2)

/-- Mirrors the `matches!` pattern list in JobFilter::matches (job.rs):
two statuses agree when they are the same variant, the Failed payload
being ignored. -/
def statusKindEq : JobStatus → JobStatus → Bool
  | .pending, .pending => true
  | .running, .running => true
  | .completed, .completed => true
  | .cancelled, .cancelled => true
  | .failed _, .failed _ => true
  | _, _ => false

/-- Mirrors JobFilter::matches (job.rs): each supplied field must match or
the function returns false (the Rust early returns become a Bool
conjunction); `created_at > created_before` is written as
`created_before < created_at`. -/
def JobFilter.matches (f : JobFilter) (job : Job) : Bool :=
  (match f.status with
   | some status => statusKindEq status job.status
   | none => true) &&
  (match f.name with
   | some n => strContains job.name n
   | none => true) &&
  (match f.created_after with
   | some created_after => !(job.metadata.created_at < created_after)
   | none => true) &&
  (match f.created_before with
   | some created_before => !(created_before < job.metadata.created_at)
   | none => true) &&
  (match f.command with
   | some c => strContains job.command c
   | none => true)

/-- Association-list lookup mirroring HashMap::get on the job map
(queue.rs keys the map by job id). -/
def lookupJob (jobs : List (String × Job)) (id : String) : Option Job :=
  (jobs.find? (fun p => p.1 = id)).map (fun p => p.2)

/-- Mirrors HashMap::get_mut followed by a mutation of the stored job:
the entry with the given key, when present, is replaced by `f` of it. -/
def updateJob (jobs : List (String × Job)) (id : String) (f : Job → Job) :
    List (String × Job) :=
  jobs.map (fun p => if p.1 = id then (p.1, f p.2) else p)

/-- Mirrors HashMap::insert on the job map: replace an existing entry or
append a new one. -/
def insertJob (jobs : List (String × Job)) (id : String) (j : Job) :
    List (String × Job) :=
  if jobs.any (fun p => p.1 = id) then updateJob jobs id (fun _ => j)
  else jobs ++ [(id, j)]

/-- Mirrors HashSet::insert on the running set. -/
def insertUnique (l : List String) (x : String) : List String :=
  if x ∈ l then l else l ++ [x]

/-- In-memory state of JobQueue (queue.rs): the job store map, the pending
VecDeque (head first), the running HashSet and the completed-result list.
Durable storage only mirrors this state, so it is not modelled. -/
structure QueueState where
  jobs : List (String × Job)
  pending : List String
  running : List String
  completed : List JobResult
deriving DecidableEq, Repr

/-- Mirrors JobQueue::submit_job (queue.rs): insert into the job map, push
the id on the pending tail, return the id. -/
def submit_job (st : QueueState) (job : Job) : QueueState × String :=
  ({ st with jobs := insertJob st.jobs job.id job
             pending := st.pending ++ [job.id] }, job.id)

/-- Mirrors JobQueue::cancel_job (queue.rs); `now` models the Utc::now()
inside Job::update_status. -/
def cancel_job (now : Time) (st : QueueState) (job_id : String) : QueueState :=
  if (lookupJob st.jobs job_id).isSome then
    { st with jobs := updateJob st.jobs job_id
                (fun j => j.update_status .cancelled now)
              pending := st.pending.filter (fun id => id ≠ job_id)
              running := st.running.filter (fun id => id ≠ job_id) }
  else st

/-- Mirrors JobQueue::get_job (queue.rs). -/
def get_job (st : QueueState) (job_id : String) : Option Job :=
  lookupJob st.jobs job_id

/-- Mirrors JobQueue::list_jobs (queue.rs): all stored jobs that pass the
optional filter. -/
def list_jobs (st : QueueState) (filter : Option JobFilter) : List Job :=
  (st.jobs.map (fun p => p.2)).filter
    (fun job =>
      match filter with
      | some f => f.matches job
      | none => true)

/-- Mirrors JobQueue::get_job_result (queue.rs): the first entry of the
completed list whose job_id matches. -/
def get_job_result (st : QueueState) (job_id : String) : Option JobResult :=
  st.completed.find? (fun r => r.job_id = job_id)

/-- Due-time test of check_and_start_jobs (queue.rs): the popped job is
pushed back when it carries a next_run strictly in the future; a job with
next_run = None passes straight to the dependency check. -/
def notDue (now : Time) (j : Job) : Bool :=
  match j.metadata.next_run with
  | some t => now < t
  | none => false

/-- Dependency gate of check_and_start_jobs (queue.rs): every dependency
id must be present in the store with status Completed. -/
def canRun (jobs : List (String × Job)) (j : Job) : Bool :=
  j.dependencies.all
    (fun dep_id =>
      match lookupJob jobs dep_id with
      | some dep_job =>
        match dep_job.status with
        | .completed => true
        | _ => false
      | none => false)

/-- Mirrors the dispatch loop of JobQueue::check_and_start_jobs
(queue.rs). The Rust `while running.len() < max` loop has no intrinsic
bound (a popped id that is not due or dependency-blocked is pushed back
on the tail and the loop continues), so the embedding carries explicit
fuel: `none` means the fuel ran out before the loop itself stopped, and a
run of the Rust loop reaches a given exit state exactly when some fuel
produces it. `now` models Utc::now(), held fixed over the pass;
`spawned` collects the job clones handed to tokio::spawn, and each
dispatched id is inserted into the running set. -/
def checkLoop (maxConc : Nat) (now : Time) :
    Nat → QueueState → List Job → Option (QueueState × List Job)
  | 0, _, _ => none
  | fuel + 1, st, spawned =>
    if st.running.length < maxConc then
      match st.pending with
      | [] => some (st, spawned)
      | job_id :: rest =>
        match lookupJob st.jobs job_id with
        | none => checkLoop maxConc now fuel { st with pending := rest } spawned
        | some job =>
          if notDue now job then
            checkLoop maxConc now fuel
              { st with pending := rest ++ [job_id] } spawned
          else if !canRun st.jobs job then
            checkLoop maxConc now fuel
              { st with pending := rest ++ [job_id] } spawned
          else
            checkLoop maxConc now fuel
              { st with pending := rest
                        running := insertUnique st.running job_id }
              (spawned ++ [job])
    else some (st, spawned)

/-- Termination of one dispatch pass from a given state: some fuel lets
the loop of check_and_start_jobs reach its own exit. -/
def checkLoopTerminates (maxConc : Nat) (now : Time) (st : QueueState) : Prop :=
  ∃ fuel, (checkLoop maxConc now fuel st []).isSome

/-- Mirrors one iteration of the drain loop in
JobQueue::process_completed_jobs (queue.rs), consuming one JobResult from
the channel: remove the id from the running set; when the job is stored
and its schedule is Recurring or Interval, recompute its next_run (at the
sink's current time `now`) and push the id back on the pending tail; a
Once job is left as is; append the result to the completed list. -/
def processOneResult (cron : String → Time → Option Time) (now : Time)
    (st : QueueState) (result : JobResult) : QueueState :=
  let running := st.running.filter (fun id => id ≠ result.job_id)
  match lookupJob st.jobs result.job_id with
  | some job =>
    match job.schedule with
    | .once _ =>
      { st with running := running, completed := st.completed ++ [result] }
    | .recurring _ =>
      { st with running := running
                jobs := updateJob st.jobs result.job_id
                          (Job.update_next_run cron now)
                pending := st.pending ++ [result.job_id]
                completed := st.completed ++ [result] }
    | .interval _ =>
      { st with running := running
                jobs := updateJob st.jobs result.job_id
                          (Job.update_next_run cron now)
                pending := st.pending ++ [result.job_id]
                completed := st.completed ++ [result] }
  | none =>
    { st with running := running, completed := st.completed ++ [result] }

/-- Mirrors JobQueue::process_completed_jobs (queue.rs): drain the
currently available results in arrival order. -/
def process_completed_jobs (cron : String → Time → Option Time) (now : Time)
    (st : QueueState) (results : List JobResult) : QueueState :=
  results.foldl (processOneResult cron now) st

/-- Mirrors JobQueue::cleanup_old_jobs (queue.rs): drop Completed/Failed
jobs whose last_run predates the cutoff, drop completed results older
than the cutoff, and count the removed jobs. -/
def cleanup_old_jobs (st : QueueState) (older_than : Time) :
    QueueState × Nat :=
  let keep : String × Job → Bool := fun p =>
    match p.2.status with
    | .completed =>
      match p.2.metadata.last_run with
      | some t => !(t < older_than)
      | none => true
    | .failed _ =>
      match p.2.metadata.last_run with
      | some t => !(t < older_than)
      | none => true
    | _ => true
  let jobs := st.jobs.filter keep
  let removed := st.jobs.length - jobs.length
  ({ st with jobs := jobs
             completed := st.completed.filter
               (fun r => !(r.completed_at < older_than)) }, removed)

/-- Cron oracle on which every expression is unparseable (or yields no
upcoming time); models cron::Schedule::from_str failing. -/
def noCron : String → Time → Option Time := fun _ _ => none

/-- Concrete interval job used to exercise the result sink: id "a",
Interval(5), created at time 0 via Job::new. -/
def jobIntervalA : Job :=
  Job.new noCron "a" 0 "alpha" "cmd" [] (.interval 5) [] none none 0 1 []

/-- Queue state in which job "a" has been dispatched (it is in the
running set) and its execution is in flight. -/
def c1State : QueueState :=
  { jobs := [("a", jobIntervalA)], pending := [], running := ["a"],
    completed := [] }

/-- Successful JobResult for job "a", completed at time 7. -/
def c1Result : JobResult :=
  { job_id := "a", success := true, output := "", error := none,
    exit_code := some 0, completed_at := 7 }

/-- Second successful JobResult for job "a", completed at time 9. -/
def c1ResultB : JobResult :=
  { job_id := "a", success := true, output := "", error := none,
    exit_code := some 0, completed_at := 9 }

/-- C1. The Result Sink does not write the execution's final state back:
after processOneResult consumes a successful result for the dispatched
job "a", the stored job still has status Pending, last_run = None and
run_count = 0; after two consumed results run_count is still 0 (not 2);
the increment to 1 happened only on the clone mutated by Job::execute,
which queue.rs discards. This refutes the claim that the stored job
reflects the execution's final state with run_count equal to the number
of observed executions. -/
theorem result_sink_leaves_stored_job_stale :
    (get_job (processOneResult noCron 7 c1State c1Result) "a").map Job.status
      = some JobStatus.pending
    ∧ (get_job (processOneResult noCron 7 c1State c1Result) "a").map
        (fun j => j.metadata.last_run) = some none
    ∧ (get_job (processOneResult noCron 7 c1State c1Result) "a").map
        (fun j => j.metadata.run_count) = some 0
    ∧ (get_job (process_completed_jobs noCron 9 c1State [c1Result, c1ResultB])
        "a").map (fun j => j.metadata.run_count) = some 0
    ∧ (Job.execute noCron 3 7 (fun _ => .ran true "" "" (some 0))
        jobIntervalA).1.metadata.run_count = 1 := by
  decide

/-- Job "a" depending on the absent id "ghost": due (next_run = 0) but
permanently dependency-blocked. -/
def jobGhost : Job :=
  Job.new noCron "a" 0 "alpha" "cmd" [] (.once 0) [] none none 0 1 ["ghost"]

/-- Queue state whose only pending job is the dependency-blocked
jobGhost, with the running set empty. -/
def stBlocked : QueueState :=
  { jobs := [("a", jobGhost)], pending := ["a"], running := [],
    completed := [] }

/-- Job "b" whose next_run (time 100) is in the future at tick time 10. -/
def jobFutureB : Job :=
  Job.new noCron "b" 0 "beta" "cmd" [] (.once 100) [] none none 0 1 []

/-- Queue state whose only pending job is the not-yet-due jobFutureB. -/
def stNotDueQ : QueueState :=
  { jobs := [("b", jobFutureB)], pending := ["b"], running := [],
    completed := [] }

/-- One iteration of the dispatch loop maps stBlocked back to itself, so
no amount of fuel reaches the loop's own exit. -/
lemma checkLoop_stBlocked_eq_none : ∀ n : Nat, checkLoop 1 10 n stBlocked [] = none := by
  intro n
  induction n with
  | zero => rfl
  | succ n ih => exact ih

/-- One iteration of the dispatch loop maps stNotDueQ back to itself, so
no amount of fuel reaches the loop's own exit. -/
lemma checkLoop_stNotDueQ_eq_none : ∀ n : Nat, checkLoop 1 10 n stNotDueQ [] = none := by
  intro n
  induction n with
  | zero => rfl
  | succ n ih => exact ih

/-- C2. One dispatch pass of check_and_start_jobs does not terminate on
every state: with the running set empty and capacity 1, a single pending
job that is dependency-blocked (stBlocked) or not yet due (stNotDueQ) is
popped and pushed back on the tail forever — the Rust loop `continue`s
instead of stopping, so for every fuel the embedded loop fails to reach
its own exit, refuting termination of the pass. -/
theorem check_and_start_jobs_pass_diverges :
    (∀ fuel : Nat, checkLoop 1 10 fuel stBlocked [] = none
      ∧ checkLoop 1 10 fuel stNotDueQ [] = none)
    ∧ ¬ checkLoopTerminates 1 10 stBlocked
    ∧ ¬ checkLoopTerminates 1 10 stNotDueQ := by
  refine ⟨fun fuel => ⟨checkLoop_stBlocked_eq_none fuel, checkLoop_stNotDueQ_eq_none fuel⟩, ?_, ?_⟩
  · rintro ⟨fuel, h⟩
    rw [checkLoop_stBlocked_eq_none fuel] at h
    simp at h
  · rintro ⟨fuel, h⟩
    rw [checkLoop_stNotDueQ_eq_none fuel] at h
    simp at h

/-- Instance of the divergence theorem at fuel 9. -/
theorem check_and_start_jobs_pass_diverges_witness :
    checkLoop 1 10 9 stBlocked [] = none ∧ checkLoop 1 10 9 stNotDueQ [] = none :=
  check_and_start_jobs_pass_diverges.1 9

/-- Not-yet-due job at the head of the queue for the C3 scenario:
next_run = 100, tick time 10. -/
def c3jobA : Job :=
  Job.new noCron "a" 0 "alpha" "cmd" [] (.once 100) [] none none 0 1 []

/-- Due job behind the not-due head: next_run = 5, tick time 10. -/
def c3jobB : Job :=
  Job.new noCron "b" 0 "beta" "cmd" [] (.once 5) [] none none 0 1 []

/-- Queue state with the not-due job "a" in front of the due job "b". -/
def c3State : QueueState :=
  { jobs := [("a", c3jobA), ("b", c3jobB)], pending := ["a", "b"],
    running := [], completed := [] }

/-- C3. When the popped head is not yet due the dispatcher pushes it back
to the tail but keeps dispatching in the same tick (the Rust code
`continue`s rather than stopping): from c3State at tick time 10 the pass
exits having spawned the later candidate "b" (running set ["b"], head "a"
requeued), whereas the claim says no further candidate is evaluated until
the next tick, i.e. nothing would be spawned. -/
theorem not_due_head_does_not_stop_dispatch :
    notDue 10 c3jobA = true
    ∧ (checkLoop 1 10 3 c3State []).map (fun p => p.2.map Job.id)
        = some ["b"]
    ∧ (checkLoop 1 10 3 c3State []).map (fun p => p.1.running) = some ["b"]
    ∧ (checkLoop 1 10 3 c3State []).map (fun p => p.1.pending) = some ["a"] := by
  decide

/-- Looking up the updated key returns the stored job passed through the
update function. -/
lemma lookupJob_updateJob (jobs : List (String × Job)) (id : String)
    (f : Job → Job) :
    lookupJob (updateJob jobs id f) id = (lookupJob jobs id).map f := by
  induction jobs with
  | nil => rfl
  | cons p rest ih =>
    by_cases h : p.1 = id
    · simp [lookupJob, updateJob, List.find?_cons, h]
    · simp only [updateJob, List.map_cons, if_neg h]
      simp [lookupJob, List.find?_cons, h]
      simpa [lookupJob, updateJob] using ih

/-- Looking up a key absent from the map yields none. -/
lemma lookupJob_eq_none (jobs : List (String × Job)) (id : String)
    (h : jobs.all (fun p => p.1 ≠ id)) : lookupJob jobs id = none := by
  induction jobs with
  | nil => rfl
  | cons p rest ih =>
    simp only [List.all_cons, Bool.and_eq_true, decide_eq_true_eq] at h
    simp [lookupJob, List.find?_cons, h.1]
    simpa [lookupJob] using ih h.2

/-- Looking up the freshly inserted key returns the inserted job. -/
lemma lookupJob_insertJob (jobs : List (String × Job)) (id : String)
    (j : Job) : lookupJob (insertJob jobs id j) id = some j := by
  unfold insertJob
  by_cases h : jobs.any (fun p => p.1 = id)
  · rw [if_pos h, lookupJob_updateJob]
    simp only [List.any_eq_true, decide_eq_true_eq] at h
    obtain ⟨p, hp, hid⟩ := h
    have hs : (List.find? (fun q => decide (q.1 = id)) jobs).isSome := by
      rw [List.find?_isSome]
      exact ⟨p, hp, by simp [hid]⟩
    cases hl : List.find? (fun q => decide (q.1 = id)) jobs with
    | none => rw [hl] at hs; simp at hs
    | some q => simp [lookupJob, hl]
  · rw [if_neg h]
    simp only [List.any_eq_true, decide_eq_true_eq] at h
    push_neg at h
    induction jobs with
    | nil => simp [lookupJob, List.find?_cons]
    | cons p rest ih =>
      have hp : ¬ p.1 = id := h p (by simp)
      simp only [List.cons_append]
      simp [lookupJob, List.find?_cons, hp]
      have := ih (fun q hq => h q (by simp [hq]))
      simpa [lookupJob] using this

/-- Empty queue state. -/
def emptyQ : QueueState :=
  { jobs := [], pending := [], running := [], completed := [] }

/-- Job built by Job::new from a Recurring schedule whose cron expression
the cron library cannot parse (oracle noCron). -/
def c4job : Job :=
  Job.new noCron "bad" 0 "alpha" "cmd" [] (.recurring "not a cron") []
    none none 0 1 []

/-- C4 counterexample. A Recurring job with an unparseable cron
expression is accepted, not rejected: Job::new swallows the parse error
(next_run = None) and submit_job inserts the job into the store, pushes
its id and returns the id normally — the claim says the job is never
inserted and the error is surfaced at creation time. -/
theorem unparseable_cron_job_is_stored :
    c4job.metadata.next_run = none
    ∧ get_job (submit_job emptyQ c4job).1 "bad" = some c4job
    ∧ (submit_job emptyQ c4job).1.pending = ["bad"]
    ∧ (submit_job emptyQ c4job).2 = "bad" := by
  decide

/-- C4 amended. Submitting a job whose Recurring schedule carries an
unparseable cron expression does not fail: Job::new swallows the parse
error leaving next_run = None, and submit_job stores the job, pushes its
id onto the pending tail and returns the id to the submitter. -/
theorem submit_job_swallows_unparseable_cron
    (cron : String → Time → Option Time) (id nm cm : String) (now : Time)
    (args : List String) (env : List (String × String)) (wd : Option String)
    (tmo : Option Dur) (rc : Nat) (rd : Dur) (deps : List String)
    (st : QueueState) (expr : String) (h : cron expr now = none) :
    (Job.new cron id now nm cm args (.recurring expr) env wd tmo rc rd
      deps).metadata.next_run = none
    ∧ get_job (submit_job st (Job.new cron id now nm cm args
        (.recurring expr) env wd tmo rc rd deps)).1 id
        = some (Job.new cron id now nm cm args (.recurring expr) env wd tmo
            rc rd deps)
    ∧ (submit_job st (Job.new cron id now nm cm args (.recurring expr) env
        wd tmo rc rd deps)).1.pending = st.pending ++ [id]
    ∧ (submit_job st (Job.new cron id now nm cm args (.recurring expr) env
        wd tmo rc rd deps)).2 = id := by
  refine ⟨by simp [Job.new, h], ?_, rfl, rfl⟩
  show lookupJob (insertJob st.jobs id _) id = _
  rw [lookupJob_insertJob]

/-- Instance of the amended C4 theorem on the empty state with the noCron
oracle and the expression "x". -/
theorem submit_job_swallows_unparseable_cron_witness :
    (Job.new noCron "i" 3 "n" "c" [] (.recurring "x") [] none none 0 1
      []).metadata.next_run = none
    ∧ get_job (submit_job emptyQ (Job.new noCron "i" 3 "n" "c" []
        (.recurring "x") [] none none 0 1 [])).1 "i"
        = some (Job.new noCron "i" 3 "n" "c" [] (.recurring "x") [] none
            none 0 1 [])
    ∧ (submit_job emptyQ (Job.new noCron "i" 3 "n" "c" [] (.recurring "x")
        [] none none 0 1 [])).1.pending = emptyQ.pending ++ ["i"]
    ∧ (submit_job emptyQ (Job.new noCron "i" 3 "n" "c" [] (.recurring "x")
        [] none none 0 1 [])).2 = "i" :=
  submit_job_swallows_unparseable_cron noCron "i" "n" "c" 3 [] [] none
    none 0 1 [] emptyQ "x" rfl

/-- Interval(10) job created by Job::new at time 100. -/
def c5job : Job :=
  Job.new noCron "a" 100 "n" "c" [] (.interval 10) [] none none 0 1 []

/-- C5 counterexample. For a job created with Interval(10) at time 100,
Job::new sets next_run to the creation time itself (some 100), not to
creation time plus the interval (some 110) as the claim states. -/
theorem interval_next_run_at_creation_is_now :
    c5job.metadata.created_at = 100
    ∧ c5job.metadata.next_run = some 100
    ∧ c5job.metadata.next_run ≠ some (100 + 10) := by
  decide

/-- C5 amended. For schedule Interval(d), Job::new sets next_run to the
creation time (the first run is immediately due), and each call of
Job::update_next_run after a run sets next_run to its call time plus d
(the sink calls it when it consumes the result, so the cadence is
measured from completion processing, shifted by execution duration). -/
theorem interval_next_run_creation_and_reschedule
    (cron : String → Time → Option Time) (id nm cm : String) (now : Time)
    (args : List String) (env : List (String × String)) (wd : Option String)
    (tmo : Option Dur) (rc : Nat) (rd : Dur) (deps : List String)
    (d : Dur) :
    (Job.new cron id now nm cm args (.interval d) env wd tmo rc rd
      deps).metadata.next_run = some now
    ∧ ∀ (j : Job) (t : Time), j.schedule = .interval d →
        (Job.update_next_run cron t j).metadata.next_run = some (t + d) := by
  constructor
  · simp [Job.new]
  · intro j t h
    simp [Job.update_next_run, h]

/-- Instance of the amended C5 theorem: creation at time 100 and a
reschedule at time 7 of the Interval(10) job. -/
theorem interval_next_run_creation_and_reschedule_witness :
    (Job.new noCron "a" 100 "n" "c" [] (.interval 10) [] none none 0 1
      []).metadata.next_run = some 100
    ∧ (Job.update_next_run noCron 7 c5job).metadata.next_run
        = some (7 + 10) :=
  ⟨(interval_next_run_creation_and_reschedule noCron "a" "n" "c" 100 [] []
      none none 0 1 [] 10).1,
   (interval_next_run_creation_and_reschedule noCron "a" "n" "c" 100 [] []
      none none 0 1 [] 10).2 c5job 7 rfl⟩

/-- Pending Recurring job with an unparseable cron expression: next_run
is None from creation. -/
def c6job : Job :=
  Job.new noCron "b6" 0 "beta" "cmd" [] (.recurring "bogus") [] none none
    0 1 []

/-- Queue state right after submitting c6job to the empty queue. -/
def c6State : QueueState := (submit_job emptyQ c6job).1

/-- C6 counterexample. A job with next_run = None can still be
dispatched: the freshly submitted Pending job c6job (Recurring with an
unparseable cron expression) has next_run = None, yet one dispatch pass
at time 10 spawns it and puts it in the running set — refuting that
next_run is None exactly for jobs that will never fire again. -/
theorem pending_job_with_none_next_run_is_dispatched :
    c6job.metadata.next_run = none
    ∧ c6job.status = JobStatus.pending
    ∧ (checkLoop 1 10 2 c6State []).map (fun p => p.2) = some [c6job]
    ∧ (checkLoop 1 10 2 c6State []).map (fun p => p.1.running)
        = some ["b6"] := by
  decide

/-- C6 amended. After update_next_run, next_run is None exactly when the
schedule is Once, or Recurring with a cron expression yielding no
upcoming fire time; next_run = None does not mean the job never fires:
the dispatcher's due-time test treats next_run = None as due (it never
requeues such a job for time reasons). -/
theorem next_run_none_characterization
    (cron : String → Time → Option Time) (now : Time) (j : Job) :
    ((Job.update_next_run cron now j).metadata.next_run = none ↔
      (match j.schedule with
       | .once _ => True
       | .recurring e => cron e now = none
       | .interval _ => False))
    ∧ (j.metadata.next_run = none → notDue now j = false) := by
  constructor
  · cases h : j.schedule with
    | once t => simp [Job.update_next_run, h]
    | recurring e => simp [Job.update_next_run, h]
    | interval d => simp [Job.update_next_run, h]
  · intro h
    simp [notDue, h]

/-- Instance of the amended C6 theorem: the dispatcher's due-time test on
c6job (next_run = None) at time 10. -/
theorem next_run_none_characterization_witness :
    notDue 10 c6job = false :=
  (next_run_none_characterization noCron 10 c6job).2 rfl

/-- Is this trace event a process attempt? -/
def isAttemptEvent : ExecEvent → Bool
  | .attempt _ => true
  | .sleep _ => false

/-- Is this trace event a retry-delay sleep? -/
def isSleepEvent : ExecEvent → Bool
  | .attempt _ => false
  | .sleep _ => true

/-- Number of process attempts in an execution trace. -/
def countAttempts (evs : List ExecEvent) : Nat := evs.countP isAttemptEvent

/-- Number of retry-delay sleeps in an execution trace. -/
def countSleeps (evs : List ExecEvent) : Nat := evs.countP isSleepEvent

/-- Does this attempt outcome count as a failure in Job::execute (process
ran with non-success status, or failed to launch)? -/
def attemptFails : AttemptOutcome → Bool
  | .ran s _ _ _ => !s
  | .launchErr _ => true

/-- Error text Job::execute records for a failing attempt outcome:
captured stderr for a non-zero exit, the launch error message otherwise. -/
def attemptError : AttemptOutcome → Option String
  | .ran _ _ se _ => some se
  | .launchErr m => some m

/-- One-step unfolding of the retry loop: failing exit status with no
retry budget left breaks out with a failed result. -/
lemma execLoop_base_ranFalse (jid : String) (rd : Dur)
    (outcomes : Nat → AttemptOutcome) (tEnd : Time) (i : Nat)
    (so se : String) (c : Option Int) (ho : outcomes i = .ran false so se c) :
    execLoop jid rd outcomes tEnd i 0
      = ({ job_id := jid, success := false, output := so, error := some se,
           exit_code := c, completed_at := tEnd }, [.attempt (outcomes i)]) := by
  rw [execLoop, ho]

/-- One-step unfolding of the retry loop: launch failure with no retry
budget left breaks out with a failed result. -/
lemma execLoop_base_launchErr (jid : String) (rd : Dur)
    (outcomes : Nat → AttemptOutcome) (tEnd : Time) (i : Nat)
    (m : String) (ho : outcomes i = .launchErr m) :
    execLoop jid rd outcomes tEnd i 0
      = ({ job_id := jid, success := false, output := "", error := some m,
           exit_code := none, completed_at := tEnd }, [.attempt (outcomes i)]) := by
  rw [execLoop, ho]

/-- One-step unfolding of the retry loop: failing exit status with retry
budget left sleeps the retry delay and recurses on the next attempt. -/
lemma execLoop_step_ranFalse (jid : String) (rd : Dur)
    (outcomes : Nat → AttemptOutcome) (tEnd : Time) (i left : Nat)
    (so se : String) (c : Option Int) (ho : outcomes i = .ran false so se c) :
    execLoop jid rd outcomes tEnd i (left + 1)
      = ((execLoop jid rd outcomes tEnd (i + 1) left).1,
         .attempt (outcomes i) :: .sleep rd ::
           (execLoop jid rd outcomes tEnd (i + 1) left).2) := by
  rw [execLoop, ho]

/-- One-step unfolding of the retry loop: launch failure with retry
budget left sleeps the retry delay and recurses on the next attempt. -/
lemma execLoop_step_launchErr (jid : String) (rd : Dur)
    (outcomes : Nat → AttemptOutcome) (tEnd : Time) (i left : Nat)
    (m : String) (ho : outcomes i = .launchErr m) :
    execLoop jid rd outcomes tEnd i (left + 1)
      = ((execLoop jid rd outcomes tEnd (i + 1) left).1,
         .attempt (outcomes i) :: .sleep rd ::
           (execLoop jid rd outcomes tEnd (i + 1) left).2) := by
  rw [execLoop, ho]

/-- Behaviour of the retry loop under an always-failing process oracle:
starting at attempt index i with `left` retries remaining it makes
left + 1 attempts separated by left sleeps of the retry delay, and breaks
with a failed result carrying the last attempt's error. -/
lemma execLoop_allFail (jid : String) (rd : Dur)
    (outcomes : Nat → AttemptOutcome) (tEnd : Time)
    (h : ∀ k, attemptFails (outcomes k) = true) :
    ∀ (left i : Nat),
      countAttempts (execLoop jid rd outcomes tEnd i left).2 = left + 1
      ∧ countSleeps (execLoop jid rd outcomes tEnd i left).2 = left
      ∧ (∀ e ∈ (execLoop jid rd outcomes tEnd i left).2,
          isSleepEvent e = true → e = .sleep rd)
      ∧ (execLoop jid rd outcomes tEnd i left).1.success = false
      ∧ (execLoop jid rd outcomes tEnd i left).1.error
          = attemptError (outcomes (i + left))
      ∧ (execLoop jid rd outcomes tEnd i left).1.job_id = jid
      ∧ (execLoop jid rd outcomes tEnd i left).1.completed_at = tEnd := by
  intro left
  induction left with
  | zero =>
    intro i
    have hi := h i
    cases ho : outcomes i with
    | ran s so se c =>
      rw [ho] at hi
      cases s with
      | true => simp [attemptFails] at hi
      | false =>
        rw [execLoop_base_ranFalse jid rd outcomes tEnd i so se c ho, ho]
        refine ⟨?_, ?_, ?_, ?_, ?_, ?_, ?_⟩ <;>
          simp [countAttempts, countSleeps, isAttemptEvent, isSleepEvent,
            attemptError, ho]
    | launchErr m =>
      rw [execLoop_base_launchErr jid rd outcomes tEnd i m ho, ho]
      refine ⟨?_, ?_, ?_, ?_, ?_, ?_, ?_⟩ <;>
        simp [countAttempts, countSleeps, isAttemptEvent, isSleepEvent,
          attemptError, ho]
  | succ left' ih =>
    intro i
    have hi := h i
    obtain ⟨ih1, ih2, ih3, ih4, ih5, ih6, ih7⟩ := ih (i + 1)
    have harith : i + 1 + left' = i + (left' + 1) := by omega
    cases ho : outcomes i with
    | ran s so se c =>
      rw [ho] at hi
      cases s with
      | true => simp [attemptFails] at hi
      | false =>
        rw [execLoop_step_ranFalse jid rd outcomes tEnd i left' so se c ho]
        refine ⟨?_, ?_, ?_, ?_, ?_, ?_, ?_⟩
        · have h1 := ih1
          simp [countAttempts, List.countP_cons, isAttemptEvent,
            isSleepEvent] at h1 ⊢
          omega
        · have h2 := ih2
          simp [countSleeps, List.countP_cons, isAttemptEvent,
            isSleepEvent] at h2 ⊢
          omega
        · intro e he hs
          simp only [List.mem_cons] at he
          rcases he with rfl | rfl | he
          · simp [isSleepEvent] at hs
          · rfl
          · exact ih3 e he hs
        · exact ih4
        · rw [← harith]; exact ih5
        · exact ih6
        · exact ih7
    | launchErr m =>
      rw [execLoop_step_launchErr jid rd outcomes tEnd i left' m ho]
      refine ⟨?_, ?_, ?_, ?_, ?_, ?_, ?_⟩
      · have h1 := ih1
        simp [countAttempts, List.countP_cons, isAttemptEvent,
          isSleepEvent] at h1 ⊢
        omega
      · have h2 := ih2
        simp [countSleeps, List.countP_cons, isAttemptEvent,
          isSleepEvent] at h2 ⊢
        omega
      · intro e he hs
        simp only [List.mem_cons] at he
        rcases he with rfl | rfl | he
        · simp [isSleepEvent] at hs
        · rfl
        · exact ih3 e he hs
      · exact ih4
      · rw [← harith]; exact ih5
      · exact ih6
      · exact ih7

/-- C7. An execution of a job whose process invocation always fails makes
exactly retry_count + 1 attempts with retry_count sleeps of exactly
retry_delay between them, increments run_count once for the whole group,
records last_run, and produces a single failed JobResult whose error is
the last attempt's error, the job clone ending in status Failed with that
error. -/
theorem always_failing_execution_makes_r_plus_one_attempts
    (cron : String → Time → Option Time) (now tEnd : Time)
    (outcomes : Nat → AttemptOutcome) (j : Job)
    (h : ∀ k, attemptFails (outcomes k) = true) :
    countAttempts (Job.execute cron now tEnd outcomes j).2.2
      = j.retry_count + 1
    ∧ countSleeps (Job.execute cron now tEnd outcomes j).2.2 = j.retry_count
    ∧ (∀ e ∈ (Job.execute cron now tEnd outcomes j).2.2,
        isSleepEvent e = true → e = .sleep j.retry_delay)
    ∧ (Job.execute cron now tEnd outcomes j).1.metadata.run_count
        = j.metadata.run_count + 1
    ∧ (Job.execute cron now tEnd outcomes j).1.metadata.last_run = some now
    ∧ (Job.execute cron now tEnd outcomes j).2.1.success = false
    ∧ (Job.execute cron now tEnd outcomes j).2.1.error
        = attemptError (outcomes j.retry_count)
    ∧ (Job.execute cron now tEnd outcomes j).1.status
        = .failed ((attemptError (outcomes j.retry_count)).getD "") := by
  obtain ⟨a1, a2, a3, a4, a5, a6, a7⟩ :=
    execLoop_allFail j.id j.retry_delay outcomes tEnd h j.retry_count 0
  rw [Nat.zero_add] at a5
  refine ⟨?_, ?_, ?_, ?_, ?_, ?_, ?_, ?_⟩
  · simpa [Job.execute] using a1
  · simpa [Job.execute] using a2
  · intro e he hs
    refine a3 e ?_ hs
    simpa [Job.execute] using he
  · simp [Job.execute, Job.update_status, Job.update_next_run]
  · simp [Job.execute, Job.update_status, Job.update_next_run]
  · simpa [Job.execute] using a4
  · simpa [Job.execute] using a5
  · simp [Job.execute, Job.update_status, Job.update_next_run, a4, a5]

/-- Job with retry_count = 2 and retry_delay = 5 used to instantiate the
retry theorem. -/
def c7job : Job :=
  Job.new noCron "a7" 0 "n" "c" [] (.once 0) [] none none 2 5 []

/-- Process oracle that always fails to launch. -/
def failOracle : Nat → AttemptOutcome := fun _ => .launchErr "boom"

/-- Instance of the C7 theorem: retry_count = 2 gives 3 attempts, 2
sleeps, a failed result carrying the last error, and run_count 1. -/
theorem always_failing_execution_makes_r_plus_one_attempts_witness :
    countAttempts (Job.execute noCron 0 9 failOracle c7job).2.2 = 3
    ∧ countSleeps (Job.execute noCron 0 9 failOracle c7job).2.2 = 2
    ∧ (Job.execute noCron 0 9 failOracle c7job).1.metadata.run_count = 1
    ∧ (Job.execute noCron 0 9 failOracle c7job).2.1.error = some "boom"
    ∧ (Job.execute noCron 0 9 failOracle c7job).1.status
        = JobStatus.failed "boom" := by
  obtain ⟨b1, b2, b3, b4, b5, b6, b7, b8⟩ :=
    always_failing_execution_makes_r_plus_one_attempts noCron 0 9
      failOracle c7job (fun k => rfl)
  exact ⟨b1, b2, b4, b7, b8⟩

/-- Claim-side reading of the filter from the spec: an AND over the
supplied fields — status kind, substring on name, substring on command,
and created_at inside the closed range given by after/before. -/
def filterSpec (f : JobFilter) (j : Job) : Prop :=
  (∀ s, f.status = some s → statusKindEq s j.status = true)
  ∧ (∀ n, f.name = some n → strContains j.name n = true)
  ∧ (∀ a, f.created_after = some a → a ≤ j.metadata.created_at)
  ∧ (∀ b, f.created_before = some b → j.metadata.created_at ≤ b)
  ∧ (∀ c, f.command = some c → strContains j.command c = true)

/-- Filter with no fields supplied. -/
def emptyFilter : JobFilter :=
  { status := none, name := none, created_after := none,
    created_before := none, command := none }

/-- C8. list_jobs with a filter returns exactly the stored jobs every
supplied filter field matches: variant-only status comparison (any two
Failed payloads agree), substring matches on name and command, and
created_at within the closed range given by created_after and
created_before; a filter with no fields, or no filter at all, matches
every stored job. -/
theorem list_jobs_filter_semantics (st : QueueState) (f : JobFilter)
    (j : Job) :
    (j ∈ list_jobs st (some f) ↔ (∃ p ∈ st.jobs, p.2 = j)
      ∧ f.matches j = true)
    ∧ (f.matches j = true ↔ filterSpec f j)
    ∧ (∀ a b, statusKindEq (.failed a) (.failed b) = true)
    ∧ emptyFilter.matches j = true
    ∧ (j ∈ list_jobs st none ↔ ∃ p ∈ st.jobs, p.2 = j) := by
  refine ⟨?_, ?_, ?_, ?_, ?_⟩
  · simp [list_jobs, List.mem_filter, List.mem_map]
  · obtain ⟨os, onm, oa, ob, oc⟩ := f
    cases os <;> cases onm <;> cases oa <;> cases ob <;> cases oc <;>
      simp [JobFilter.matches, filterSpec, Int.not_lt, and_assoc]
  · intro a b
    rfl
  · rfl
  · simp [list_jobs, List.mem_filter, List.mem_map]

/-- Concrete job for instantiating the filter theorem. -/
def c8job : Job :=
  Job.new noCron "a8" 50 "build nightly" "cargo" [] (.once 0) [] none none
    0 1 []

/-- Instance of the C8 theorem: two Failed statuses with different
payloads agree, and the empty filter matches a concrete job. -/
theorem list_jobs_filter_semantics_witness :
    statusKindEq (.failed "a") (.failed "b") = true
    ∧ emptyFilter.matches c8job = true :=
  ⟨(list_jobs_filter_semantics emptyQ emptyFilter c8job).2.2.1 "a" "b",
   (list_jobs_filter_semantics emptyQ emptyFilter c8job).2.2.2.1⟩

/-- Dispatch-loop exit: when the running set has reached capacity the
pass returns immediately. -/
lemma checkLoop_exit_at_capacity (maxConc : Nat) (now : Time) (fuel : Nat)
    (st : QueueState) (spawned : List Job)
    (h : ¬ st.running.length < maxConc) :
    checkLoop maxConc now (fuel + 1) st spawned = some (st, spawned) := by
  rw [checkLoop, if_neg h]

/-- Dispatch-loop step: with capacity left, a stored head job that is due
and dependency-clear is spawned, its id moved to the running set. -/
lemma checkLoop_dispatch_step (maxConc : Nat) (now : Time) (fuel : Nat)
    (st : QueueState) (spawned : List Job) (job_id : String)
    (rest : List String) (job : Job)
    (hpend : st.pending = job_id :: rest)
    (hcap : st.running.length < maxConc)
    (hlook : lookupJob st.jobs job_id = some job)
    (hdue : notDue now job = false)
    (hrun : canRun st.jobs job = true) :
    checkLoop maxConc now (fuel + 1) st spawned
      = checkLoop maxConc now fuel
          { st with pending := rest
                    running := insertUnique st.running job_id }
          (spawned ++ [job]) := by
  rw [checkLoop, if_pos hcap, hpend]
  simp only [hlook, hdue, hrun]
  simp

/-- Queue state in which the given job is stored and currently executing
(its id is in the running set), with nothing else pending. -/
def c9pre (job : Job) : QueueState :=
  { jobs := [(job.id, job)], pending := [], running := [job.id],
    completed := [] }

/-- Does the schedule make the result sink re-enqueue the job
(the Recurring and Interval arms of the match in
process_completed_jobs)? -/
def schedIsRecurringOrInterval : JobSchedule → Bool
  | .once _ => false
  | .recurring _ => true
  | .interval _ => true

/-- C9. The result sink re-enqueues any Recurring or Interval job without
checking its status, and the dispatcher gates only on due-time and
dependencies: a job of either schedule kind cancelled while its execution
was in flight is pushed back onto the pending queue when its result
arrives, still stored with status Cancelled, and the next dispatch pass
at any time at which its recomputed next_run is due (or None) spawns it
again — the spawned clone has status Cancelled. -/
theorem cancelled_recurring_job_is_redispatched
    (cron : String → Time → Option Time) (tSink now : Time) (job : Job)
    (r : JobResult)
    (h1 : schedIsRecurringOrInterval job.schedule = true)
    (h2 : job.status = .cancelled)
    (h3 : r.job_id = job.id) (h4 : job.dependencies = [])
    (h5 : notDue now (Job.update_next_run cron tSink job) = false) :
    (processOneResult cron tSink (c9pre job) r).pending = [job.id]
    ∧ (get_job (processOneResult cron tSink (c9pre job) r) job.id).map
        Job.status = some JobStatus.cancelled
    ∧ (checkLoop 1 now 2 (processOneResult cron tSink (c9pre job) r) []).map
        (fun p => p.2.map Job.status) = some [JobStatus.cancelled] := by
  have hst1 : processOneResult cron tSink (c9pre job) r
      = { jobs := [(job.id, Job.update_next_run cron tSink job)],
          pending := [job.id], running := [], completed := [r] } := by
    cases hs : job.schedule with
    | once t => rw [hs] at h1; simp [schedIsRecurringOrInterval] at h1
    | recurring e => simp [processOneResult, c9pre, h3, hs, lookupJob, updateJob]
    | interval d => simp [processOneResult, c9pre, h3, hs, lookupJob, updateJob]
  have hstat : (Job.update_next_run cron tSink job).status = .cancelled := by
    simp [Job.update_next_run, h2]
  refine ⟨by rw [hst1], ?_, ?_⟩
  · rw [hst1]
    simp [get_job, lookupJob, hstat]
  · rw [hst1]
    rw [show (2 : Nat) = 1 + 1 from rfl]
    rw [checkLoop_dispatch_step 1 now 1
      { jobs := [(job.id, Job.update_next_run cron tSink job)],
        pending := [job.id], running := [], completed := [r] } []
      job.id [] (Job.update_next_run cron tSink job) rfl (by simp)
      (by simp [lookupJob]) h5
      (by simp [canRun, Job.update_next_run, h4])]
    rw [show (1 : Nat) = 0 + 1 from rfl]
    rw [checkLoop_exit_at_capacity 1 now 0 _ _ (by simp [insertUnique])]
    simp [hstat]

/-- Interval(5) job created at time 0 and then cancelled at time 1 while
its execution is in flight. -/
def c9job : Job :=
  (Job.new noCron "a9" 0 "n" "c" [] (.interval 5) [] none none 0 1
    []).update_status .cancelled 1

/-- Result of the in-flight execution of c9job, arriving at time 3. -/
def c9result : JobResult :=
  { job_id := "a9", success := true, output := "", error := none,
    exit_code := some 0, completed_at := 3 }

/-- Recurring job (cron expression "e", unparsed by the noCron oracle, so
the recomputed next_run is None and the job is immediately due) created
at time 0 and then cancelled at time 1 while its execution is in
flight. -/
def c9jobR : Job :=
  (Job.new noCron "r9" 0 "n" "c" [] (.recurring "e") [] none none 0 1
    []).update_status .cancelled 1

/-- Result of the in-flight execution of c9jobR, arriving at time 3. -/
def c9resultR : JobResult :=
  { job_id := "r9", success := true, output := "", error := none,
    exit_code := some 0, completed_at := 3 }

/-- Instance of the C9 theorem for both schedule kinds: the cancelled
Recurring job and the cancelled Interval(5) job are each re-enqueued by
the sink at time 3 and redispatched at time 8. -/
theorem cancelled_recurring_job_is_redispatched_witness :
    ((processOneResult noCron 3 (c9pre c9jobR) c9resultR).pending = ["r9"]
     ∧ (get_job (processOneResult noCron 3 (c9pre c9jobR) c9resultR)
         "r9").map Job.status = some JobStatus.cancelled
     ∧ (checkLoop 1 8 2 (processOneResult noCron 3 (c9pre c9jobR)
         c9resultR) []).map (fun p => p.2.map Job.status)
         = some [JobStatus.cancelled])
    ∧ ((processOneResult noCron 3 (c9pre c9job) c9result).pending = ["a9"]
     ∧ (get_job (processOneResult noCron 3 (c9pre c9job) c9result)
         "a9").map Job.status = some JobStatus.cancelled
     ∧ (checkLoop 1 8 2 (processOneResult noCron 3 (c9pre c9job)
         c9result) []).map (fun p => p.2.map Job.status)
         = some [JobStatus.cancelled]) :=
  ⟨cancelled_recurring_job_is_redispatched noCron 3 8 c9jobR c9resultR
     rfl rfl rfl rfl (by decide),
   cancelled_recurring_job_is_redispatched noCron 3 8 c9job c9result
     rfl rfl rfl rfl (by decide)⟩

/-- C10. get_job_result returns the earliest-appended matching result:
when the completed list splits as pre ++ r :: post with r the first entry
for the id, the call returns r (later results for the same id are never
returned); with no matching entry it returns none; and the sink appends
each consumed result at the end of the completed list, so list order is
append order. -/
theorem get_job_result_returns_earliest (st : QueueState)
    (job_id : String) :
    (∀ pre r post, st.completed = pre ++ r :: post → r.job_id = job_id →
        (∀ r2 ∈ pre, r2.job_id ≠ job_id) →
        get_job_result st job_id = some r)
    ∧ ((∀ r2 ∈ st.completed, r2.job_id ≠ job_id) →
        get_job_result st job_id = none)
    ∧ (∀ cron now r, (processOneResult cron now st r).completed
        = st.completed ++ [r]) := by
  refine ⟨?_, ?_, ?_⟩
  · intro pre r post hc hr hpre
    unfold get_job_result
    rw [hc]
    clear hc
    induction pre with
    | nil => simp [List.find?_cons, hr]
    | cons a l ih =>
      have ha : ¬ a.job_id = job_id := hpre a (by simp)
      simp only [List.cons_append, List.find?_cons]
      rw [show decide (a.job_id = job_id) = false by simp [ha]]
      exact ih (fun x hx => hpre x (by simp [hx]))
  · intro h
    simp only [get_job_result, List.find?_eq_none, decide_eq_true_eq]
    intro x hx
    exact h x hx
  · intro cron now r
    cases hl : lookupJob st.jobs r.job_id with
    | none => simp [processOneResult, hl]
    | some job =>
      cases hs : job.schedule <;> simp [processOneResult, hl, hs]

/-- Earlier result for id "x" (appended first). -/
def c10r1 : JobResult :=
  { job_id := "x", success := true, output := "one", error := none,
    exit_code := some 0, completed_at := 1 }

/-- Result for an unrelated id "q". -/
def c10r2 : JobResult :=
  { job_id := "q", success := false, output := "", error := some "e",
    exit_code := some 1, completed_at := 2 }

/-- Later result for id "x" (appended after c10r1). -/
def c10r3 : JobResult :=
  { job_id := "x", success := false, output := "two", error := some "f",
    exit_code := some 1, completed_at := 5 }

/-- Completed-history with two results for "x"; the one appended earlier
is c10r1. -/
def c10State : QueueState :=
  { jobs := [], pending := [], running := [],
    completed := [c10r2, c10r1, c10r3] }

/-- Instance of the C10 theorem: the earlier of the two "x" results is
returned and an absent id gives none. -/
theorem get_job_result_returns_earliest_witness :
    get_job_result c10State "x" = some c10r1
    ∧ get_job_result c10State "zz" = none :=
  ⟨(get_job_result_returns_earliest c10State "x").1 [c10r2] c10r1 [c10r3]
      rfl rfl (by decide),
   (get_job_result_returns_earliest c10State "zz").2.1 (by decide)⟩
